import Mathlib

/-!
Verification of the OpenShift → AKS manifest transformer (`tools/ocp2aks.py`).

The script manipulates parsed YAML trees (Python dicts, lists and scalars).
We embed those values with the inductive type `Val`; Python dicts become
ordered association lists (insertion order preserved, keys unique in
practice), and fallible operations (attribute errors / type errors raised by
the script) are modelled with `Option`, `none` standing for an uncaught
exception.  String primitives of the source (`in`, `startswith`, `lower`,
truthiness) are re-implemented on `List Char` so that every definition is
executable by the kernel.
-/

/-- A parsed YAML / Python value: scalars, ordered mappings and sequences. -/
inductive Val where
  | str (s : String)
  | int (n : Int)
  | bool (b : Bool)
  | null
  | map (m : List (String × Val))
  | seq (l : List Val)

/-- Python truthiness (`bool(v)`): empty strings, zero, `None`, empty
containers and `False` are falsy. -/
def truthy : Val → Bool
  | .str s => !(s == "")
  | .int n => !(n == 0)
  | .bool b => b
  | .null => false
  | .map m => !m.isEmpty
  | .seq l => !l.isEmpty

/-- Python `a or b`: returns `a` when truthy, else `b`. -/
def pyOr (a b : Val) : Val := if truthy a then a else b

/-- View a value as a dict; `none` models the `AttributeError` raised when
the script calls a dict method on a non-dict. -/
def asMap? : Val → Option (List (String × Val))
  | .map m => some m
  | _ => none

/-- View a value as a list; `none` models iterating a non-list. -/
def asSeq? : Val → Option (List Val)
  | .seq l => some l
  | _ => none

/-- View a value as a string; `none` models a `TypeError` on string
operations. -/
def asStr? : Val → Option String
  | .str s => some s
  | _ => none

/-- Python `d.get(k, default)` on an association list. -/
def getD (m : List (String × Val)) (k : String) (d : Val) : Val :=
  match m.find? (fun p => p.1 == k) with
  | some kv => kv.2
  | none => d

/-- Python `k in d`. -/
def hasKey (m : List (String × Val)) (k : String) : Bool :=
  (m.find? (fun p => p.1 == k)).isSome

/-- Python `d[k] = v`: replace the value in place when the key exists
(insertion position kept), otherwise append the new entry at the end. -/
def setKey (m : List (String × Val)) (k : String) (v : Val) : List (String × Val) :=
  if hasKey m k then m.map (fun p => if p.1 == k then (p.1, v) else p)
  else m ++ [(k, v)]

/-- Python `d.pop(k, None)`: drop the entry for `k`. -/
def delKey (m : List (String × Val)) (k : String) : List (String × Val) :=
  m.filter (fun p => !(p.1 == k))

/-- Python `d.setdefault(k, v)`. -/
def setdefaultKey (m : List (String × Val)) (k : String) (v : Val) : List (String × Val) :=
  if hasKey m k then m else m ++ [(k, v)]

/-- Look a key up in a mapping value. -/
def getKey? (v : Val) (k : String) : Option Val :=
  match v with
  | .map m => (m.find? (fun p => p.1 == k)).map (fun p => p.2)
  | _ => none

/-- Follow a key path through nested mappings. -/
def getPath : Val → List String → Option Val
  | v, [] => some v
  | v, k :: ks =>
    match getKey? v k with
    | some w => getPath w ks
    | none => none

mutual
/-- Functional update at a key path: the model of an in-place mutation of a
nested dict (a missing path or a non-dict on the way leaves the value
unchanged). -/
def setPath : Val → List String → Val → Val
  | _, [], nv => nv
  | .map m, k :: ks, nv => .map (setPathEntries m k ks nv)
  | v, _ :: _, _ => v

/-- Update every entry whose key matches the head of the path. -/
def setPathEntries : List (String × Val) → String → List String → Val → List (String × Val)
  | [], _, _, _ => []
  | (k', v') :: rest, k, ks, nv =>
    (if k' == k then (k', setPath v' ks nv) else (k', v')) :: setPathEntries rest k ks nv
end

/-- Python `==` between a value and a string literal (only equal when the
value is that string). -/
def isKind : Val → String → Bool
  | .str t, s => t == s
  | _, _ => false

/-- ASCII lowering of a string, as `str.lower()` does on the ASCII
filenames and kind names the script compares. -/
def lowerStr (s : String) : String := ⟨s.data.map Char.toLower⟩

/-- Python `needle in haystack` on strings (contiguous substring test). -/
def listHasSub (needle : List Char) : List Char → Bool
  | [] => needle.isEmpty
  | c :: rest => needle.isPrefixOf (c :: rest) || listHasSub needle rest

/-- Python `c in s` for a single character. -/
def strHasChar (s : String) (c : Char) : Bool := s.data.contains c

/-- Python string truthiness. -/
def strTruthy (s : String) : Bool := !(s == "")

/-- Python `s.startswith(p)`. -/
def pyStartsWith (s p : String) : Bool := p.data.isPrefixOf s.data

/-- `map_image` from the source: pick the target container image reference.
Keeps `image` when it already looks fully qualified (non-empty, has a `/` or
`.`, and has a `:`); returns `image_registry` verbatim when that override
itself carries a `:`; otherwise builds
`image_registry/[repo_prefix/]name_hint:latest`, falling back to the raw
image and finally to `repo:latest`. -/
def map_image (image nameHint imageRegistry repoPrefix : String) : String :=
  if strTruthy image && (strHasChar image '/' || strHasChar image '.') && strHasChar image ':' then
    image
  else if strTruthy imageRegistry && strHasChar imageRegistry ':' then
    imageRegistry
  else if strTruthy imageRegistry then
    imageRegistry ++ "/" ++
      (if strTruthy repoPrefix then repoPrefix ++ "/" ++ nameHint else nameHint) ++ ":latest"
  else if strTruthy image then image
  else (if strTruthy repoPrefix then repoPrefix ++ "/" ++ nameHint else nameHint) ++ ":latest"

/-- The split underlying `pathlib`'s suffix handling: locate the last `.` of
a name, returning the characters before and after it (`none` when there is
no dot). -/
def splitLastDot : List Char → Option (List Char × List Char)
  | [] => none
  | c :: cs =>
    match splitLastDot cs with
    | some (b, a) => some (c :: b, a)
    | none => if c == '.' then some ([], cs) else none

/-- `pathlib.PurePath.suffix` of a file name: the part from the last dot,
provided that dot is neither the first nor the last character. -/
def pySuffix (name : String) : String :=
  match splitLastDot name.data with
  | some (b, a) => if b.isEmpty || a.isEmpty then "" else ⟨'.' :: a⟩
  | none => ""

/-- `pathlib.PurePath.with_suffix` on a file name: strip the old suffix (if
any) and append the new one. -/
def pyWithSuffix (name suffix : String) : String :=
  match splitLastDot name.data with
  | some (b, a) => if b.isEmpty || a.isEmpty then name ++ suffix else ⟨b⟩ ++ suffix
  | none => name ++ suffix

/-- `is_yaml_file` from the source: the lower-cased suffix is `.yml` or
`.yaml`. -/
def is_yaml_file (name : String) : Bool :=
  lowerStr (pySuffix name) == ".yml" || lowerStr (pySuffix name) == ".yaml"

/-- Does some dict in the output bundle carry `kind == k`?  This is the
membership test `k in {doc.get("kind") for doc in out_docs}` of the
source. -/
def hasOutKind (outDocs : List Val) (k : String) : Bool :=
  outDocs.any fun d =>
    match d with
    | .map m => isKind (getD m "kind" .null) k
    | _ => false

/-- `map_output_filename` from the source, at the level of base names: the
mapping table is scanned in insertion order (`DeploymentConfig` then
`Route`); a hit on the lower-cased file name or on the kinds present in the
output bundle rewrites the name to the canonical one. -/
def map_output_filename (name : String) (outDocs : List Val) : String :=
  if listHasSub "deploymentconfig".data (lowerStr name).data || hasOutKind outDocs "DeploymentConfig" then
    "deployment.yaml"
  else if listHasSub "route".data (lowerStr name).data || hasOutKind outDocs "Route" then
    "ingress.yaml"
  else name

/-- Model of `image or ""` followed by string operations: a falsy value
becomes the empty string, a truthy value must already be a string. -/
def strOrEmpty? (v : Val) : Option String :=
  if truthy v then asStr? v else some ""

/-- Python `int(v)` on the values that reach it in the source: integers and
booleans convert, anything else raises. -/
def pyInt? : Val → Option Int
  | .int n => some n
  | .bool b => some (if b then 1 else 0)
  | _ => none

/-- Drop every annotation whose key starts with the OpenShift-proprietary
prefix (the dict comprehensions of the source). -/
def filterAnns (m : List (String × Val)) : List (String × Val) :=
  m.filter (fun p => !(pyStartsWith p.1 "openshift.io/"))

/-- The strategy translation block of `to_deployment`: a source strategy
type that lower-cases to something starting with `recreate` becomes
`{type: Recreate}`; everything else becomes a `RollingUpdate` reading
`maxSurge`/`maxUnavailable` from `rollingParams`, each defaulting to
`"25%"` when the key is absent. -/
def dc_strategy (sm : List (String × Val)) : Option Val :=
  (asMap? (pyOr (getD sm "strategy" (.map [])) (.map []))).bind fun stm =>
  (asStr? (pyOr (getD stm "type" .null) (.str "Rolling"))).bind fun ty =>
  if pyStartsWith (lowerStr ty) "recreate" then
    some (.map [("type", .str "Recreate")])
  else
    (asMap? (pyOr (getD stm "rollingParams" .null) (.map []))).bind fun pm =>
    some (.map [("type", .str "RollingUpdate"),
      ("rollingUpdate", .map [
        ("maxSurge", getD pm "maxSurge" (.str "25%")),
        ("maxUnavailable", getD pm "maxUnavailable" (.str "25%"))])])

/-- The label computation of `to_deployment` (line 119 of the source):
template-level labels, else top-level labels, else `{app: name}`, where
falsy (absent, null or empty) label values fall through. -/
def dc_labels (dc : Val) : Option Val :=
  (asMap? dc).bind fun dm =>
  (asMap? (getD dm "metadata" (.map []))).bind fun mm =>
  (asMap? (getD dm "spec" (.map []))).bind fun sm =>
  (asMap? (pyOr (getD sm "template" (.map [])) (.map []))).bind fun tm =>
  (asMap? (pyOr (getD tm "metadata" (.map [])) (.map []))).bind fun tmm =>
  some (pyOr (getD (setdefaultKey tmm "labels" (.map [])) "labels" .null)
    (pyOr (getD (setdefaultKey mm "labels" (.map [])) "labels" .null)
      (.map [("app", getD mm "name" (.str "app"))])))

/-- The per-container loop of `to_deployment`: rewrite the image through
`map_image` (hint = container name, falling back to the resource name) and
default a falsy pull policy to `IfNotPresent`.  Container names are
modelled as strings (the source interpolates them into strings). -/
def map_container (nameV : Val) (imageRegistry repoPrefix : String) (c : Val) : Option Val :=
  (asMap? c).bind fun cm =>
  (strOrEmpty? (getD cm "image" (.str ""))).bind fun img =>
  (asStr? (getD cm "name" nameV)).bind fun hint =>
  some (.map
    (let c1 := setKey cm "image" (.str (map_image img hint imageRegistry repoPrefix))
     if truthy (getD c1 "imagePullPolicy" .null) then c1
     else setKey c1 "imagePullPolicy" (.str "IfNotPresent")))

/-- `to_deployment` from the source: convert a `DeploymentConfig` document
into an `apps/v1 Deployment`.  All three label positions receive the same
(deep-copied) label map; OpenShift annotations are filtered on both
metadata levels; the strategy and containers are translated by the helpers
above.  Non-sequence `containers` values are modelled as a conversion
failure. -/
def to_deployment (dc : Val) (imageRegistry repoPrefix : String) : Option Val :=
  (asMap? dc).bind fun dm =>
  (asMap? (getD dm "metadata" (.map []))).bind fun mm =>
  (asMap? (getD dm "spec" (.map []))).bind fun sm =>
  (asMap? (pyOr (getD sm "template" (.map [])) (.map []))).bind fun tm =>
  (asMap? (pyOr (getD tm "metadata" (.map [])) (.map []))).bind fun tmm =>
  (asMap? (pyOr (getD (setdefaultKey mm "labels" (.map [])) "annotations" .null) (.map []))).bind
    fun metaAnnM =>
  (asMap? (pyOr (getD (setdefaultKey tmm "labels" (.map [])) "annotations" .null) (.map []))).bind
    fun tplAnnM =>
  (dc_strategy sm).bind fun strat =>
  (asMap? (pyOr (getD tm "spec" (.map [])) (.map []))).bind fun tsm =>
  (asSeq? (getD tsm "containers" (.seq []))).bind fun cs =>
  (cs.mapM (map_container (getD mm "name" (.str "app")) imageRegistry repoPrefix)).bind fun csOut =>
  some (.map [
    ("apiVersion", .str "apps/v1"),
    ("kind", .str "Deployment"),
    ("metadata", .map [
      ("name", getD mm "name" (.str "app")),
      ("labels", pyOr (getD (setdefaultKey tmm "labels" (.map [])) "labels" .null)
        (pyOr (getD (setdefaultKey mm "labels" (.map [])) "labels" .null)
          (.map [("app", getD mm "name" (.str "app"))]))),
      ("annotations", .map (filterAnns metaAnnM))]),
    ("spec", .map [
      ("replicas", getD sm "replicas" (.int 1)),
      ("selector", .map [("matchLabels",
        pyOr (getD (setdefaultKey tmm "labels" (.map [])) "labels" .null)
          (pyOr (getD (setdefaultKey mm "labels" (.map [])) "labels" .null)
            (.map [("app", getD mm "name" (.str "app"))])))]),
      ("template", .map [
        ("metadata", .map [
          ("labels", pyOr (getD (setdefaultKey tmm "labels" (.map [])) "labels" .null)
            (pyOr (getD (setdefaultKey mm "labels" (.map [])) "labels" .null)
              (.map [("app", getD mm "name" (.str "app"))]))),
          ("annotations", .map (filterAnns tplAnnM))]),
        ("spec", if hasKey tsm "containers" then Val.map (setKey tsm "containers" (.seq csOut))
          else Val.map tsm)]),
      ("strategy", strat)])])

/-- `to_ingress` from the source: convert a `Route` document into a
`networking.k8s.io/v1 Ingress` with a single `/` prefix rule, the
ingress-class annotation, verbatim label copies, and a TLS block chosen by
the explicit secret, else the Route's own `tls` stanza, else omitted. -/
def to_ingress (route : Val) (defaultDomain ingressClass tlsSecret : String) : Option Val :=
  (asMap? route).bind fun rm =>
  (asMap? (getD rm "metadata" (.map []))).bind fun mm =>
  (asMap? (pyOr (getD rm "spec" (.map [])) (.map []))).bind fun sm =>
  (asStr? (getD mm "name" (.str "web"))).bind fun name =>
  (asMap? (pyOr (getD sm "to" .null) (.map []))).bind fun toM =>
  (asMap? (pyOr (getD sm "port" .null) (.map []))).bind fun portM =>
  (match pyOr (getD portM "targetPort" .null) (.int 80) with
    | .str s => some (Val.map [("name", .str s)])
    | v => (pyInt? v).bind fun n => some (Val.map [("number", .int n)])).bind fun portV =>
  (asMap? (pyOr (getD mm "labels" .null) (.map []))).bind fun lm =>
  some (.map [
    ("apiVersion", .str "networking.k8s.io/v1"),
    ("kind", .str "Ingress"),
    ("metadata", .map [
      ("name", .str name),
      ("labels", .map lm),
      ("annotations", .map [("kubernetes.io/ingress.class", .str ingressClass)])]),
    ("spec", .map (
      ([("rules", Val.seq [Val.map [
        ("host", pyOr (getD sm "host" .null) (.str (name ++ "." ++ defaultDomain))),
        ("http", .map [("paths", .seq [.map [
          ("path", .str "/"),
          ("pathType", .str "Prefix"),
          ("backend", .map [("service", .map [
            ("name", pyOr (getD toM "name" .null) (.str name)),
            ("port", portV)])])]])])]])] : List (String × Val)) ++
      (if strTruthy tlsSecret then
        ([("tls", Val.seq [Val.map [
          ("hosts", .seq [pyOr (getD sm "host" .null) (.str (name ++ "." ++ defaultDomain))]),
          ("secretName", .str tlsSecret)]])] : List (String × Val))
      else if truthy (getD sm "tls" .null) then
        ([("tls", Val.seq [Val.map [
          ("hosts", .seq [pyOr (getD sm "host" .null) (.str (name ++ "." ++ defaultDomain))]),
          ("secretName", .str (name ++ "-tls"))]])] : List (String × Val))
      else [])))])

/-- C2: on any raw image that is non-empty and contains a `/` or a `.` as
well as a `:`, the image resolver is the identity, whatever the name hint,
registry override and repository prefix are. -/
theorem map_image_identity_on_qualified (image nameHint imageRegistry repoPrefix : String)
    (h1 : image ≠ "") (h2 : strHasChar image '/' = true ∨ strHasChar image '.' = true)
    (h3 : strHasChar image ':' = true) :
    map_image image nameHint imageRegistry repoPrefix = image := by
  have h1' : strTruthy image = true := by simp [strTruthy, h1]
  unfold map_image
  rcases h2 with h2 | h2 <;> simp [h1', h2, h3]

/-- Closed instance of C2 at a fully-qualified image reference. -/
theorem map_image_identity_on_qualified_witness :
    map_image "quay.io/team/web:v2" "web" "myacr.azurecr.io" "apps" = "quay.io/team/web:v2" :=
  map_image_identity_on_qualified "quay.io/team/web:v2" "web" "myacr.azurecr.io" "apps"
    (by decide) (Or.inl (by decide)) (by decide)

/-- Strings with a non-empty right part never concatenate to the empty
string. -/
theorem append_ne_empty (a b : String) (hb : b ≠ "") : a ++ b ≠ "" := by
  intro h
  apply hb
  have hd := congrArg String.data h
  rw [String.data_append] at hd
  have hempty : ("" : String).data = [] := rfl
  rw [hempty] at hd
  have hb' : b.data = [] := (List.append_eq_nil.mp hd).2
  cases b with
  | mk l => cases hb'; rfl

/-- C3: when the raw image does not look fully qualified and the registry
override carries no colon, `map_image` returns
`registry/repo:latest` (registry non-empty), else the raw image (non-empty),
else `repo:latest`, with `repo = repoPrefix/nameHint` when the prefix is
non-empty and `nameHint` otherwise; the documented example holds; and the
resolver never returns the empty string. -/
theorem map_image_fallback_and_nonempty :
    (∀ image nameHint imageRegistry repoPrefix : String,
      (image = "" ∨ (strHasChar image '/' = false ∧ strHasChar image '.' = false) ∨
        strHasChar image ':' = false) →
      strHasChar imageRegistry ':' = false →
      map_image image nameHint imageRegistry repoPrefix =
        (if imageRegistry ≠ "" then
          imageRegistry ++ "/" ++
            (if repoPrefix ≠ "" then repoPrefix ++ "/" ++ nameHint else nameHint) ++ ":latest"
        else if image ≠ "" then image
        else (if repoPrefix ≠ "" then repoPrefix ++ "/" ++ nameHint else nameHint) ++ ":latest")) ∧
    map_image "" "web" "myacr.azurecr.io" "apps" = "myacr.azurecr.io/apps/web:latest" ∧
    (∀ image nameHint imageRegistry repoPrefix : String,
      map_image image nameHint imageRegistry repoPrefix ≠ "") := by
  refine ⟨?_, by decide, ?_⟩
  · intro image nameHint imageRegistry repoPrefix hq hreg
    unfold map_image
    have hq' : (strTruthy image && (strHasChar image '/' || strHasChar image '.') &&
        strHasChar image ':') = false := by
      rcases hq with h | h | h
      · simp [strTruthy, h]
      · simp [h.1, h.2]
      · simp [h]
    rw [hq', hreg]
    simp only [Bool.and_false, Bool.false_eq_true, if_false]
    by_cases hr : imageRegistry = "" <;> by_cases hp : repoPrefix = "" <;>
      by_cases hi : image = "" <;>
      simp [strTruthy, hr, hp, hi]
  · intro image nameHint imageRegistry repoPrefix
    unfold map_image
    split
    · next hcond =>
      intro h
      rw [h] at hcond
      simp [strTruthy] at hcond
    · split
      · next hcond =>
        intro h
        rw [h] at hcond
        simp [strTruthy] at hcond
      · split
        · exact append_ne_empty _ ":latest" (by decide)
        · split
          · next hcond =>
            intro h
            rw [h] at hcond
            simp [strTruthy] at hcond
          · exact append_ne_empty _ ":latest" (by decide)

/-- Closed instance of C3's first clause at the documented example. -/
theorem map_image_fallback_and_nonempty_witness :
    map_image "" "web" "myacr.azurecr.io" "apps" = "myacr.azurecr.io/apps/web:latest" :=
  map_image_fallback_and_nonempty.1 "" "web" "myacr.azurecr.io" "apps" (Or.inl rfl) (by decide)

/-- C1: the output router rewrites a file name to `deployment.yaml` when the
lower-cased name contains `deploymentconfig` or the output bundle carries a
`DeploymentConfig` kind, else to `ingress.yaml` when the name contains
`route` or the bundle carries a `Route` kind, else keeps the original name;
in particular a recognized kind in the bundle forces the canonical name even
when the file name contains no recognized pattern, and ties go to the
`DeploymentConfig` family first. -/
theorem routeFilename_canonical (name : String) (outDocs : List Val) :
    ((listHasSub "deploymentconfig".data (lowerStr name).data = true ∨
        hasOutKind outDocs "DeploymentConfig" = true) →
      map_output_filename name outDocs = "deployment.yaml") ∧
    (¬(listHasSub "deploymentconfig".data (lowerStr name).data = true ∨
        hasOutKind outDocs "DeploymentConfig" = true) →
      (listHasSub "route".data (lowerStr name).data = true ∨
        hasOutKind outDocs "Route" = true) →
      map_output_filename name outDocs = "ingress.yaml") ∧
    (¬(listHasSub "deploymentconfig".data (lowerStr name).data = true ∨
        hasOutKind outDocs "DeploymentConfig" = true) →
      ¬(listHasSub "route".data (lowerStr name).data = true ∨
        hasOutKind outDocs "Route" = true) →
      map_output_filename name outDocs = name) ∧
    (hasOutKind outDocs "DeploymentConfig" = true →
      map_output_filename name outDocs = "deployment.yaml") ∧
    (hasOutKind outDocs "Route" = true →
      listHasSub "deploymentconfig".data (lowerStr name).data = false →
      hasOutKind outDocs "DeploymentConfig" = false →
      map_output_filename name outDocs = "ingress.yaml") := by
  cases h1 : listHasSub "deploymentconfig".data (lowerStr name).data <;>
    cases h2 : hasOutKind outDocs "DeploymentConfig" <;>
    cases h3 : listHasSub "route".data (lowerStr name).data <;>
    cases h4 : hasOutKind outDocs "Route" <;>
    simp [map_output_filename, h1, h2, h3, h4]

/-- Closed instance of C1: a bundle holding a `DeploymentConfig` kind forces
`deployment.yaml` although the file name `app.yaml` matches no pattern. -/
theorem routeFilename_canonical_witness :
    map_output_filename "app.yaml" [Val.map [("kind", Val.str "DeploymentConfig")]] =
      "deployment.yaml" :=
  (routeFilename_canonical "app.yaml" [Val.map [("kind", Val.str "DeploymentConfig")]]).2.2.2.1
    (by decide)

/-- Example DeploymentConfig document used by closed witnesses. -/
def dcExample : Val := .map [("kind", .str "DeploymentConfig"),
  ("metadata", .map [("name", .str "web")]), ("spec", .map [])]

/-- The Deployment produced from `dcExample`. -/
def dExample : Val := (to_deployment dcExample "" "").getD .null

/-- C4: whenever `to_deployment` succeeds, the output's top-level labels,
selector match-labels and pod-template labels all equal the fallback label
map (template labels, else top labels, else `{app: name}`), and mutating
any one of the three positions leaves the other two untouched. -/
theorem deployment_labels_consistent (dc : Val) (reg pre : String) (d : Val)
    (h : to_deployment dc reg pre = some d) :
    ∃ L, dc_labels dc = some L ∧
      getPath d ["metadata", "labels"] = some L ∧
      getPath d ["spec", "selector", "matchLabels"] = some L ∧
      getPath d ["spec", "template", "metadata", "labels"] = some L ∧
      (∀ v : Val,
        getPath (setPath d ["metadata", "labels"] v)
          ["spec", "selector", "matchLabels"] = some L ∧
        getPath (setPath d ["metadata", "labels"] v)
          ["spec", "template", "metadata", "labels"] = some L ∧
        getPath (setPath d ["spec", "selector", "matchLabels"] v)
          ["metadata", "labels"] = some L ∧
        getPath (setPath d ["spec", "selector", "matchLabels"] v)
          ["spec", "template", "metadata", "labels"] = some L ∧
        getPath (setPath d ["spec", "template", "metadata", "labels"] v)
          ["metadata", "labels"] = some L ∧
        getPath (setPath d ["spec", "template", "metadata", "labels"] v)
          ["spec", "selector", "matchLabels"] = some L) := by
  simp only [to_deployment, Option.bind_eq_some, Option.some.injEq] at h
  obtain ⟨dm, hdm, mm, hmm, sm, hsm, tm, htm, tmm, htmm, mA, hmA, tA, htA, strat, hstrat,
    tsm, htsm, cs, hcs, csOut, hcsOut, hd⟩ := h
  subst hd
  refine ⟨_, ?_, rfl, rfl, rfl, fun v => ⟨rfl, rfl, rfl, rfl, rfl, rfl⟩⟩
  simp [dc_labels, hdm, hmm, hsm, htm, htmm]

/-- Closed instance of C4 at `dcExample`. -/
theorem deployment_labels_consistent_witness :
    to_deployment dcExample "" "" = some dExample ∧
    ∃ L, dc_labels dcExample = some L ∧
      getPath dExample ["metadata", "labels"] = some L ∧
      getPath dExample ["spec", "selector", "matchLabels"] = some L ∧
      getPath dExample ["spec", "template", "metadata", "labels"] = some L ∧
      (∀ v : Val,
        getPath (setPath dExample ["metadata", "labels"] v)
          ["spec", "selector", "matchLabels"] = some L ∧
        getPath (setPath dExample ["metadata", "labels"] v)
          ["spec", "template", "metadata", "labels"] = some L ∧
        getPath (setPath dExample ["spec", "selector", "matchLabels"] v)
          ["metadata", "labels"] = some L ∧
        getPath (setPath dExample ["spec", "selector", "matchLabels"] v)
          ["spec", "template", "metadata", "labels"] = some L ∧
        getPath (setPath dExample ["spec", "template", "metadata", "labels"] v)
          ["metadata", "labels"] = some L ∧
        getPath (setPath dExample ["spec", "template", "metadata", "labels"] v)
          ["spec", "selector", "matchLabels"] = some L) :=
  ⟨rfl, deployment_labels_consistent dcExample "" "" dExample rfl⟩

/-- C5: whenever `to_deployment` succeeds, the output strategy is
`{type: Recreate}` exactly when the source strategy type lower-cases to
something starting with `recreate`; otherwise it is a `RollingUpdate` whose
`maxSurge`/`maxUnavailable` come from the source rolling parameters, each
defaulting independently to `"25%"` when absent. -/
theorem deployment_strategy_translation (dc : Val) (reg pre : String) (d : Val)
    (h : to_deployment dc reg pre = some d) :
    ∃ dm sm stm ty, asMap? dc = some dm ∧
      asMap? (getD dm "spec" (.map [])) = some sm ∧
      asMap? (pyOr (getD sm "strategy" (.map [])) (.map [])) = some stm ∧
      asStr? (pyOr (getD stm "type" .null) (.str "Rolling")) = some ty ∧
      ((getPath d ["spec", "strategy"] = some (.map [("type", .str "Recreate")])) ↔
        pyStartsWith (lowerStr ty) "recreate" = true) ∧
      (pyStartsWith (lowerStr ty) "recreate" = false →
        ∃ pm, asMap? (pyOr (getD stm "rollingParams" .null) (.map [])) = some pm ∧
          getPath d ["spec", "strategy"] = some (.map [
            ("type", .str "RollingUpdate"),
            ("rollingUpdate", .map [
              ("maxSurge", getD pm "maxSurge" (.str "25%")),
              ("maxUnavailable", getD pm "maxUnavailable" (.str "25%"))])])) := by
  simp only [to_deployment, Option.bind_eq_some, Option.some.injEq] at h
  obtain ⟨dm, hdm, mm, hmm, sm, hsm, tm, htm, tmm, htmm, mA, hmA, tA, htA, strat, hstrat,
    tsm, htsm, cs, hcs, csOut, hcsOut, hd⟩ := h
  subst hd
  simp only [dc_strategy, Option.bind_eq_some] at hstrat
  obtain ⟨stm, hstm, ty, hty, hif⟩ := hstrat
  refine ⟨dm, sm, stm, ty, hdm, hsm, hstm, hty, ?_, ?_⟩
  · cases hsw : pyStartsWith (lowerStr ty) "recreate" with
    | true =>
      rw [hsw, if_pos rfl] at hif
      simp only [Option.some.injEq] at hif
      subst hif
      exact iff_of_true rfl rfl
    | false =>
      rw [hsw] at hif
      simp only [Bool.false_eq_true, if_false, Option.bind_eq_some, Option.some.injEq] at hif
      obtain ⟨pm, hpm, hstrat2⟩ := hif
      subst hstrat2
      refine iff_of_false ?_ (by simp)
      intro hcontra
      have h2 : (Val.map [("type", Val.str "RollingUpdate"),
          ("rollingUpdate", Val.map [
            ("maxSurge", getD pm "maxSurge" (Val.str "25%")),
            ("maxUnavailable", getD pm "maxUnavailable" (Val.str "25%"))])]) =
          Val.map [("type", Val.str "Recreate")] := Option.some.inj hcontra
      simp at h2
  · intro hsw
    rw [hsw] at hif
    simp only [Bool.false_eq_true, if_false, Option.bind_eq_some, Option.some.injEq] at hif
    obtain ⟨pm, hpm, hstrat⟩ := hif
    subst hstrat
    exact ⟨pm, hpm, rfl⟩

/-- Closed instance of C5 at `dcExample`. -/
theorem deployment_strategy_translation_witness :
    to_deployment dcExample "" "" = some dExample ∧
    ∃ dm sm stm ty, asMap? dcExample = some dm ∧
      asMap? (getD dm "spec" (.map [])) = some sm ∧
      asMap? (pyOr (getD sm "strategy" (.map [])) (.map [])) = some stm ∧
      asStr? (pyOr (getD stm "type" .null) (.str "Rolling")) = some ty ∧
      ((getPath dExample ["spec", "strategy"] = some (.map [("type", .str "Recreate")])) ↔
        pyStartsWith (lowerStr ty) "recreate" = true) ∧
      (pyStartsWith (lowerStr ty) "recreate" = false →
        ∃ pm, asMap? (pyOr (getD stm "rollingParams" .null) (.map [])) = some pm ∧
          getPath dExample ["spec", "strategy"] = some (.map [
            ("type", .str "RollingUpdate"),
            ("rollingUpdate", .map [
              ("maxSurge", getD pm "maxSurge" (.str "25%")),
              ("maxUnavailable", getD pm "maxUnavailable" (.str "25%"))])])) :=
  ⟨rfl, deployment_strategy_translation dcExample "" "" dExample rfl⟩

/-- C6: whenever `to_ingress` succeeds, a non-empty explicit TLS secret
yields exactly one TLS entry `{hosts: [host], secretName: secret}`; else a
truthy `spec.tls` on the source Route yields exactly one entry with the
synthesized secret `"<name>-tls"`; else the output spec has no `tls` key at
all. -/
theorem ingress_tls_translation (route : Val) (dd ic ts : String) (d : Val)
    (h : to_ingress route dd ic ts = some d) :
    ∃ rm mm sm name, asMap? route = some rm ∧
      asMap? (getD rm "metadata" (.map [])) = some mm ∧
      asMap? (pyOr (getD rm "spec" (.map [])) (.map [])) = some sm ∧
      asStr? (getD mm "name" (.str "web")) = some name ∧
      (ts ≠ "" → getPath d ["spec", "tls"] = some (.seq [.map [
        ("hosts", .seq [pyOr (getD sm "host" .null) (.str (name ++ "." ++ dd))]),
        ("secretName", .str ts)]])) ∧
      (ts = "" → truthy (getD sm "tls" .null) = true →
        getPath d ["spec", "tls"] = some (.seq [.map [
          ("hosts", .seq [pyOr (getD sm "host" .null) (.str (name ++ "." ++ dd))]),
          ("secretName", .str (name ++ "-tls"))]])) ∧
      (ts = "" → truthy (getD sm "tls" .null) = false →
        getPath d ["spec", "tls"] = none ∧ (getKey? d "spec").isSome = true) := by
  simp only [to_ingress, Option.bind_eq_some, Option.some.injEq] at h
  obtain ⟨rm, hrm, mm, hmm, sm, hsm, name, hname, toM, htoM, portM, hportM, portV, hportV,
    lm, hlm, hd⟩ := h
  subst hd
  refine ⟨rm, mm, sm, name, hrm, hmm, hsm, hname, ?_, ?_, ?_⟩
  · intro hts
    have hts' : strTruthy ts = true := by simp [strTruthy, hts]
    rw [hts']
    rfl
  · intro hts htls
    subst hts
    rw [htls]
    rfl
  · intro hts htls
    subst hts
    rw [htls]
    exact ⟨rfl, rfl⟩

/-- Example Route document used by closed witnesses: `spec.tls` present, no
explicit secret, name `api`. -/
def routeExample : Val := .map [("kind", .str "Route"),
  ("metadata", .map [("name", .str "api")]),
  ("spec", .map [("tls", .map [("termination", .str "edge")])])]

/-- The Ingress produced from `routeExample` under domain
`apps.example.com`. -/
def ingressExample : Val := (to_ingress routeExample "apps.example.com" "nginx" "").getD .null

/-- Closed instance of C6: the documented example, a Route named `api` with
`spec.tls` and no override secret, gets exactly
`tls = [{hosts: [api.apps.example.com], secretName: api-tls}]`. -/
theorem ingress_tls_translation_witness :
    to_ingress routeExample "apps.example.com" "nginx" "" = some ingressExample ∧
    getPath ingressExample ["spec", "tls"] = some (.seq [.map [
      ("hosts", .seq [.str "api.apps.example.com"]),
      ("secretName", .str "api-tls")]]) := by
  obtain ⟨rm, mm, sm, name, h1, h2, h3, h4, h5, h6, h7⟩ :=
    ingress_tls_translation routeExample "apps.example.com" "nginx" "" ingressExample rfl
  have hrm : rm = [("kind", Val.str "Route"),
      ("metadata", Val.map [("name", Val.str "api")]),
      ("spec", Val.map [("tls", Val.map [("termination", Val.str "edge")])])] :=
    Option.some.inj (h1.symm.trans rfl)
  subst hrm
  have hmm : mm = [("name", Val.str "api")] := Option.some.inj (h2.symm.trans rfl)
  subst hmm
  have hsm : sm = [("tls", Val.map [("termination", Val.str "edge")])] :=
    Option.some.inj (h3.symm.trans rfl)
  subst hsm
  have hname : name = "api" := Option.some.inj (h4.symm.trans rfl)
  subst hname
  exact ⟨rfl, h6 rfl rfl⟩

mutual
/-- Python `repr(v)` (as used inside `str` of containers); string escaping
inside nested containers is simplified to plain quoting. -/
def pyRepr : Val → String
  | .str s => "'" ++ s ++ "'"
  | .int n => toString n
  | .bool b => if b then "True" else "False"
  | .null => "None"
  | .map m => "\x7b" ++ pyReprEntries m ++ "\x7d"
  | .seq l => "[" ++ pyReprItems l ++ "]"

/-- Comma-separated `'key': value` renderings of a dict's entries. -/
def pyReprEntries : List (String × Val) → String
  | [] => ""
  | [(k, v)] => "'" ++ k ++ "': " ++ pyRepr v
  | (k, v) :: rest => "'" ++ k ++ "': " ++ pyRepr v ++ ", " ++ pyReprEntries rest

/-- Comma-separated renderings of a list's items. -/
def pyReprItems : List Val → String
  | [] => ""
  | [v] => pyRepr v
  | v :: rest => pyRepr v ++ ", " ++ pyReprItems rest
end

/-- Python `str(v)` as f-strings apply it: strings verbatim, scalars by
their literal rendering, containers by `repr`. -/
def pyStr : Val → String
  | .str s => s
  | v => pyRepr v

/-- The per-kind counters of the run summary. -/
structure Summary where
  deploymentConfig : Nat
  route : Nat
  buildConfig : Nat
  other : Nat

/-- The configuration options the conversion engine reads. -/
structure Config where
  defaultDomain : String
  ingressClass : String
  tlsSecret : String
  imageRegistry : String
  repoPrefix : String

/-- The mutable run aggregation state: counters, the converted total, the
warning list and the written output files (destination base name paired
with the document bundle). -/
structure RunState where
  summary : Summary
  converted : Nat
  warnings : List String
  outputs : List (String × List Val)

/-- One discovered source file: either its parsed document stream or a
parse failure with the exception text. -/
inductive FileInput where
  | parsed (name : String) (docs : List Val)
  | parseError (name : String) (msg : String)

/-- The warning recorded for a skipped BuildConfig, naming the resource and
the remediation (line 314 of the source). -/
def bc_warning (bm : List (String × Val)) (imageRegistry : String) : String :=
  "BuildConfig '" ++ pyStr (getD bm "name" (.str "unnamed")) ++
    "' skipped: move builds to CI (e.g., GitHub Actions) and push images to " ++
    (if strTruthy imageRegistry then imageRegistry else "ACR") ++ "."

/-- The pass-through branch of the dispatcher: when the document's metadata
is a dict, filter out OpenShift-proprietary annotations, keeping the
filtered map when non-empty and popping the `annotations` key entirely when
it filters to nothing. -/
def filter_other (doc : Val) : Option Val :=
  match doc with
  | .map dm =>
    match getD dm "metadata" .null with
    | .map mm =>
      (asMap? (pyOr (getD mm "annotations" .null) (.map []))).bind fun am =>
      some (.map (setKey dm "metadata" (.map
        (let fa := filterAnns am
         if fa.isEmpty then delKey mm "annotations" else setKey mm "annotations" (.map fa)))))
    | _ => some doc
  | _ => some doc

/-- The per-document dispatch of the main loop: skip non-dicts and
kind-less documents, convert `DeploymentConfig` and `Route` (counting them
as converted), record a warning for `BuildConfig` without emitting output,
and pass everything else through annotation filtering. -/
def process_doc (cfg : Config) (st : RunState) (doc : Val) : Option (RunState × List Val) :=
  match doc with
  | .map dm =>
    if hasKey dm "kind" then
      if isKind (getD dm "kind" .null) "DeploymentConfig" then
        (to_deployment (.map dm) cfg.imageRegistry cfg.repoPrefix).bind fun d =>
        some ({ st with
          summary := { st.summary with deploymentConfig := st.summary.deploymentConfig + 1 },
          converted := st.converted + 1 }, [d])
      else if isKind (getD dm "kind" .null) "Route" then
        (to_ingress (.map dm) cfg.defaultDomain cfg.ingressClass cfg.tlsSecret).bind fun d =>
        some ({ st with
          summary := { st.summary with route := st.summary.route + 1 },
          converted := st.converted + 1 }, [d])
      else if isKind (getD dm "kind" .null) "BuildConfig" then
        (asMap? (getD dm "metadata" (.map []))).bind fun bm =>
        some ({ st with
          summary := { st.summary with buildConfig := st.summary.buildConfig + 1 },
          warnings := st.warnings ++ [bc_warning bm cfg.imageRegistry] }, [])
      else
        (filter_other (.map dm)).bind fun d =>
        some ({ st with
          summary := { st.summary with other := st.summary.other + 1 } }, [d])
    else some (st, [])
  | _ => some (st, [])

/-- Fold the dispatcher over one file's document stream, concatenating the
output bundles in dispatch order. -/
def process_docs (cfg : Config) (st : RunState) : List Val → Option (RunState × List Val)
  | [] => some (st, [])
  | doc :: rest =>
    (process_doc cfg st doc).bind fun so =>
    (process_docs cfg so.1 rest).bind fun sr =>
    some (sr.1, so.2 ++ sr.2)

/-- Process one discovered file: non-YAML names are skipped, a parse error
becomes one warning, and a non-empty output bundle is written under the
routed name with its suffix forced to `.yaml`. -/
def process_file (cfg : Config) (st : RunState) (f : FileInput) : Option RunState :=
  match f with
  | .parseError name msg =>
    if is_yaml_file name then
      some { st with warnings := st.warnings ++ ["Failed to parse " ++ name ++ ": " ++ msg] }
    else some st
  | .parsed name docs =>
    if is_yaml_file name then
      (process_docs cfg st docs).bind fun so =>
      some (if so.2.isEmpty then so.1
        else { so.1 with outputs := so.1.outputs ++
          [(pyWithSuffix (map_output_filename name so.2) ".yaml", so.2)] })
    else some st

/-- The main transform loop from a given state over the discovered files,
in traversal order. -/
def runFrom (cfg : Config) (st : RunState) : List FileInput → Option RunState
  | [] => some st
  | f :: rest =>
    (process_file cfg st f).bind fun st1 =>
    runFrom cfg st1 rest

/-- A key whose lookup yields a string is present. -/
theorem hasKey_of_getD_str {m : List (String × Val)} {k s : String}
    (h : getD m k .null = .str s) : hasKey m k = true := by
  unfold getD at h
  unfold hasKey
  cases hf : m.find? (fun p => p.1 == k) with
  | none => rw [hf] at h; exact Val.noConfusion h
  | some kv => simp

/-- Example configuration (all optional overrides empty). -/
def cfgExample : Config := ⟨"apps.example.com", "nginx", "", "", ""⟩

/-- The empty starting run state. -/
def stExample : RunState := ⟨⟨0, 0, 0, 0⟩, 0, [], []⟩

/-- C7: a source file consisting of exactly one BuildConfig document yields
no output documents and no written file, exactly one recorded warning that
names the resource and the remediation advice, a BuildConfig counter
incremented by one, and an unchanged converted total. -/
theorem buildconfig_only_file (cfg : Config) (st : RunState) (name : String)
    (dm bm : List (String × Val))
    (hyaml : is_yaml_file name = true)
    (hkind : getD dm "kind" .null = .str "BuildConfig")
    (hmeta : asMap? (getD dm "metadata" (.map [])) = some bm) :
    ∃ st', process_file cfg st (.parsed name [.map dm]) = some st' ∧
      st'.outputs = st.outputs ∧
      st'.converted = st.converted ∧
      st'.summary.buildConfig = st.summary.buildConfig + 1 ∧
      st'.summary.deploymentConfig = st.summary.deploymentConfig ∧
      st'.summary.route = st.summary.route ∧
      st'.summary.other = st.summary.other ∧
      st'.warnings = st.warnings ++ [bc_warning bm cfg.imageRegistry] ∧
      (∃ l r, bc_warning bm cfg.imageRegistry =
        l ++ pyStr (getD bm "name" (.str "unnamed")) ++ r) ∧
      (∃ l r, bc_warning bm cfg.imageRegistry = l ++ "move builds to CI" ++ r) := by
  have hk : hasKey dm "kind" = true := hasKey_of_getD_str hkind
  have e1 : isKind (Val.str "BuildConfig") "DeploymentConfig" = false := by decide
  have e2 : isKind (Val.str "BuildConfig") "Route" = false := by decide
  have e3 : isKind (Val.str "BuildConfig") "BuildConfig" = true := by decide
  have hpd : process_doc cfg st (.map dm) = some ({ st with
      summary := { st.summary with buildConfig := st.summary.buildConfig + 1 },
      warnings := st.warnings ++ [bc_warning bm cfg.imageRegistry] }, []) := by
    simp [process_doc, hk, hkind, e1, e2, e3, hmeta]
  refine ⟨{ st with
      summary := { st.summary with buildConfig := st.summary.buildConfig + 1 },
      warnings := st.warnings ++ [bc_warning bm cfg.imageRegistry] },
    ?_, rfl, rfl, rfl, rfl, rfl, rfl, rfl, ?_, ?_⟩
  · simp [process_file, hyaml, process_docs, hpd]
  · exact ⟨"BuildConfig '",
      "' skipped: move builds to CI (e.g., GitHub Actions) and push images to " ++
        (if strTruthy cfg.imageRegistry then cfg.imageRegistry else "ACR") ++ ".",
      by simp [bc_warning, String.append_assoc]⟩
  · refine ⟨"BuildConfig '" ++ pyStr (getD bm "name" (.str "unnamed")) ++ "' skipped: ",
      " (e.g., GitHub Actions) and push images to " ++
        ((if strTruthy cfg.imageRegistry then cfg.imageRegistry else "ACR") ++ "."), ?_⟩
    have hS : ∀ x : String,
        "' skipped: move builds to CI (e.g., GitHub Actions) and push images to " ++ x =
        "' skipped: " ++ ("move builds to CI" ++
          (" (e.g., GitHub Actions) and push images to " ++ x)) := by
      intro x
      rw [← String.append_assoc, ← String.append_assoc]
      congr 1
    simp only [bc_warning, String.append_assoc, hS]

/-- Closed instance of C7 at a one-BuildConfig file. -/
theorem buildconfig_only_file_witness :
    is_yaml_file "build.yaml" = true ∧
    getD [("kind", Val.str "BuildConfig"),
      ("metadata", Val.map [("name", Val.str "web-build")])] "kind" .null =
      .str "BuildConfig" ∧
    asMap? (getD [("kind", Val.str "BuildConfig"),
      ("metadata", Val.map [("name", Val.str "web-build")])] "metadata" (.map [])) =
      some [("name", Val.str "web-build")] ∧
    ∃ st', process_file cfgExample stExample (.parsed "build.yaml"
        [.map [("kind", Val.str "BuildConfig"),
          ("metadata", Val.map [("name", Val.str "web-build")])]]) = some st' ∧
      st'.outputs = stExample.outputs ∧
      st'.converted = stExample.converted ∧
      st'.summary.buildConfig = stExample.summary.buildConfig + 1 ∧
      st'.summary.deploymentConfig = stExample.summary.deploymentConfig ∧
      st'.summary.route = stExample.summary.route ∧
      st'.summary.other = stExample.summary.other ∧
      st'.warnings = stExample.warnings ++
        [bc_warning [("name", Val.str "web-build")] cfgExample.imageRegistry] ∧
      (∃ l r, bc_warning [("name", Val.str "web-build")] cfgExample.imageRegistry =
        l ++ pyStr (getD [("name", Val.str "web-build")] "name" (.str "unnamed")) ++ r) ∧
      (∃ l r, bc_warning [("name", Val.str "web-build")] cfgExample.imageRegistry =
        l ++ "move builds to CI" ++ r) :=
  ⟨by decide, rfl, rfl,
    buildconfig_only_file cfgExample stExample "build.yaml"
      [("kind", Val.str "BuildConfig"), ("metadata", Val.map [("name", Val.str "web-build")])]
      [("name", Val.str "web-build")] (by decide) rfl rfl⟩

/-- C8: a file whose content fails to parse contributes exactly one warning
and nothing else — no documents, no output file, no counter changes — and
the run continues with the remaining files from that state. -/
theorem parse_failure_tolerated (cfg : Config) (st : RunState) (name msg : String)
    (rest : List FileInput) (hyaml : is_yaml_file name = true) :
    ∃ st1, process_file cfg st (.parseError name msg) = some st1 ∧
      st1.warnings = st.warnings ++ ["Failed to parse " ++ name ++ ": " ++ msg] ∧
      st1.outputs = st.outputs ∧
      st1.summary = st.summary ∧
      st1.converted = st.converted ∧
      runFrom cfg st (.parseError name msg :: rest) = runFrom cfg st1 rest := by
  have hpf : process_file cfg st (.parseError name msg) =
      some { st with warnings := st.warnings ++ ["Failed to parse " ++ name ++ ": " ++ msg] } := by
    simp [process_file, hyaml]
  exact ⟨{ st with warnings := st.warnings ++ ["Failed to parse " ++ name ++ ": " ++ msg] },
    hpf, rfl, rfl, rfl, rfl, by simp [runFrom, hpf]⟩

/-- Closed instance of C8 at a malformed `bad.yaml` followed by another
file. -/
theorem parse_failure_tolerated_witness :
    is_yaml_file "bad.yaml" = true ∧
    ∃ st1, process_file cfgExample stExample (.parseError "bad.yaml" "boom") = some st1 ∧
      st1.warnings = stExample.warnings ++ ["Failed to parse " ++ "bad.yaml" ++ ": " ++ "boom"] ∧
      st1.outputs = stExample.outputs ∧
      st1.summary = stExample.summary ∧
      st1.converted = stExample.converted ∧
      runFrom cfgExample stExample
          (.parseError "bad.yaml" "boom" :: [.parseError "other.yml" "eof"]) =
        runFrom cfgExample st1 [.parseError "other.yml" "eof"] :=
  ⟨by decide, parse_failure_tolerated cfgExample stExample "bad.yaml" "boom"
    [.parseError "other.yml" "eof"] (by decide)⟩

/-- Deleting a key really removes it. -/
theorem hasKey_delKey (m : List (String × Val)) (k : String) :
    hasKey (delKey m k) k = false := by
  unfold hasKey delKey
  induction m with
  | nil => rfl
  | cons p rest ih =>
    by_cases h : p.1 == k
    · simp [List.filter, h, ih]
    · simp [List.filter, h, List.find?, ih]

/-- C9: a dispatched dict document whose kind is none of the three
recognized ones is emitted as the original with OpenShift-proprietary
annotations removed from its metadata (documents without a dict metadata
pass through untouched); the `Other` counter increments and nothing else
changes; and when the filtered annotation map is empty the emitted metadata
carries no `annotations` key at all. -/
theorem other_kind_passthrough :
    (∀ (cfg : Config) (st : RunState) (dm mm am : List (String × Val)),
      hasKey dm "kind" = true →
      isKind (getD dm "kind" .null) "DeploymentConfig" = false →
      isKind (getD dm "kind" .null) "Route" = false →
      isKind (getD dm "kind" .null) "BuildConfig" = false →
      getD dm "metadata" .null = .map mm →
      asMap? (pyOr (getD mm "annotations" .null) (.map [])) = some am →
      ∃ st', process_doc cfg st (.map dm) = some (st', [.map (setKey dm "metadata" (.map
          (if (filterAnns am).isEmpty then delKey mm "annotations"
           else setKey mm "annotations" (.map (filterAnns am)))))]) ∧
        st'.summary.other = st.summary.other + 1 ∧
        st'.summary.deploymentConfig = st.summary.deploymentConfig ∧
        st'.summary.route = st.summary.route ∧
        st'.summary.buildConfig = st.summary.buildConfig ∧
        st'.converted = st.converted ∧
        st'.warnings = st.warnings ∧
        st'.outputs = st.outputs ∧
        ((filterAnns am).isEmpty = true →
          hasKey (delKey mm "annotations") "annotations" = false)) ∧
    (∀ (cfg : Config) (st : RunState) (dm : List (String × Val)),
      hasKey dm "kind" = true →
      isKind (getD dm "kind" .null) "DeploymentConfig" = false →
      isKind (getD dm "kind" .null) "Route" = false →
      isKind (getD dm "kind" .null) "BuildConfig" = false →
      (asMap? (getD dm "metadata" .null)).isNone = true →
      ∃ st', process_doc cfg st (.map dm) = some (st', [.map dm]) ∧
        st'.summary.other = st.summary.other + 1 ∧
        st'.summary.deploymentConfig = st.summary.deploymentConfig ∧
        st'.summary.route = st.summary.route ∧
        st'.summary.buildConfig = st.summary.buildConfig ∧
        st'.converted = st.converted ∧
        st'.warnings = st.warnings ∧
        st'.outputs = st.outputs) := by
  constructor
  · intro cfg st dm mm am hkind hnotdc hnotrt hnotbc hmeta hanns
    refine ⟨{ st with summary := { st.summary with other := st.summary.other + 1 } },
      ?_, rfl, rfl, rfl, rfl, rfl, rfl, rfl, fun _ => hasKey_delKey mm "annotations"⟩
    simp [process_doc, filter_other, hkind, hnotdc, hnotrt, hnotbc, hmeta, hanns]
  · intro cfg st dm hkind hnotdc hnotrt hnotbc hmeta
    refine ⟨{ st with summary := { st.summary with other := st.summary.other + 1 } },
      ?_, rfl, rfl, rfl, rfl, rfl, rfl, rfl⟩
    cases hgd : getD dm "metadata" .null with
    | map mm =>
      rw [hgd] at hmeta
      exact absurd hmeta (by simp [asMap?])
    | str s => simp [process_doc, filter_other, hkind, hnotdc, hnotrt, hnotbc, hgd]
    | int n => simp [process_doc, filter_other, hkind, hnotdc, hnotrt, hnotbc, hgd]
    | bool b => simp [process_doc, filter_other, hkind, hnotdc, hnotrt, hnotbc, hgd]
    | null => simp [process_doc, filter_other, hkind, hnotdc, hnotrt, hnotbc, hgd]
    | seq l => simp [process_doc, filter_other, hkind, hnotdc, hnotrt, hnotbc, hgd]

/-- Closed instance of C9: a ConfigMap carrying only an
`openshift.io/`-prefixed annotation comes out with no annotations key. -/
theorem other_kind_passthrough_witness :
    hasKey [("kind", Val.str "ConfigMap"),
      ("metadata", Val.map [("annotations",
        Val.map [("openshift.io/scc", Val.str "anyuid")])])] "kind" = true ∧
    ∃ st', process_doc cfgExample stExample (.map [("kind", Val.str "ConfigMap"),
        ("metadata", Val.map [("annotations",
          Val.map [("openshift.io/scc", Val.str "anyuid")])])]) =
      some (st', [.map (setKey [("kind", Val.str "ConfigMap"),
        ("metadata", Val.map [("annotations",
          Val.map [("openshift.io/scc", Val.str "anyuid")])])] "metadata" (.map
        (if (filterAnns [("openshift.io/scc", Val.str "anyuid")]).isEmpty then
          delKey [("annotations", Val.map [("openshift.io/scc", Val.str "anyuid")])] "annotations"
         else setKey [("annotations", Val.map [("openshift.io/scc", Val.str "anyuid")])]
          "annotations" (.map (filterAnns [("openshift.io/scc", Val.str "anyuid")])))))]) ∧
      st'.summary.other = stExample.summary.other + 1 ∧
      st'.summary.deploymentConfig = stExample.summary.deploymentConfig ∧
      st'.summary.route = stExample.summary.route ∧
      st'.summary.buildConfig = stExample.summary.buildConfig ∧
      st'.converted = stExample.converted ∧
      st'.warnings = stExample.warnings ∧
      st'.outputs = stExample.outputs ∧
      ((filterAnns [("openshift.io/scc", Val.str "anyuid")]).isEmpty = true →
        hasKey (delKey [("annotations", Val.map [("openshift.io/scc", Val.str "anyuid")])]
          "annotations") "annotations" = false) :=
  ⟨by decide, other_kind_passthrough.1 cfgExample stExample
    [("kind", Val.str "ConfigMap"),
      ("metadata", Val.map [("annotations", Val.map [("openshift.io/scc", Val.str "anyuid")])])]
    [("annotations", Val.map [("openshift.io/scc", Val.str "anyuid")])]
    [("openshift.io/scc", Val.str "anyuid")]
    (by decide) (by decide) (by decide) (by decide) rfl rfl⟩

/-- The dispatcher never touches the written-outputs list. -/
theorem process_doc_outputs_eq (cfg : Config) (st : RunState) (doc : Val)
    (so : RunState × List Val) (h : process_doc cfg st doc = some so) :
    so.1.outputs = st.outputs := by
  cases doc with
  | map dm =>
    simp only [process_doc] at h
    split_ifs at h with hk h1 h2 h3
    · rw [Option.bind_eq_some] at h
      obtain ⟨d, _, h⟩ := h
      injection h with h
      subst h
      rfl
    · rw [Option.bind_eq_some] at h
      obtain ⟨d, _, h⟩ := h
      injection h with h
      subst h
      rfl
    · rw [Option.bind_eq_some] at h
      obtain ⟨bm, _, h⟩ := h
      injection h with h
      subst h
      rfl
    · rw [Option.bind_eq_some] at h
      obtain ⟨d, _, h⟩ := h
      injection h with h
      subst h
      rfl
    · injection h with h
      subst h
      rfl
  | str s => injection h with h; subst h; rfl
  | int n => injection h with h; subst h; rfl
  | bool b => injection h with h; subst h; rfl
  | null => injection h with h; subst h; rfl
  | seq l => injection h with h; subst h; rfl

/-- Folding the dispatcher over a document stream never touches the
written-outputs list either. -/
theorem process_docs_outputs_eq (cfg : Config) (docs : List Val) :
    ∀ st so, process_docs cfg st docs = some so → so.1.outputs = st.outputs := by
  induction docs with
  | nil =>
    intro st so h
    injection h with h
    subst h
    rfl
  | cons doc rest ih =>
    intro st so h
    simp only [process_docs, Option.bind_eq_some] at h
    obtain ⟨s1, hs1, s2, hs2, h⟩ := h
    injection h with h
    subst h
    calc (s2.1, s1.2 ++ s2.2).1.outputs = s2.1.outputs := rfl
      _ = s1.1.outputs := ih s1.1 s2 hs2
      _ = st.outputs := process_doc_outputs_eq cfg st doc s1 hs1

/-- Splitting at the last dot of `xs ++ ".yaml"` finds the appended dot. -/
theorem splitLastDot_append_yaml (xs : List Char) :
    splitLastDot (xs ++ '.' :: ['y', 'a', 'm', 'l']) = some (xs, ['y', 'a', 'm', 'l']) := by
  induction xs with
  | nil => rfl
  | cons c cs ih => simp [splitLastDot, ih]

/-- A file name either has no `pathlib` suffix, or splits at its last dot
and `with_suffix ".yaml"` keeps exactly its stem. -/
theorem pySuffix_cases (name : String) :
    pySuffix name = "" ∨
    ∃ b a, splitLastDot name.data = some (b, a) ∧ b.isEmpty = false ∧ a.isEmpty = false ∧
      pyWithSuffix name ".yaml" = ⟨b⟩ ++ ".yaml" := by
  cases hs : splitLastDot name.data with
  | none => left; simp only [pySuffix, hs]
  | some ba =>
    obtain ⟨b, a⟩ := ba
    by_cases hba : (b.isEmpty || a.isEmpty) = true
    · left
      simp only [pySuffix, hs, if_pos hba]
    · have hor : (b.isEmpty || a.isEmpty) = false := by
        revert hba
        cases b.isEmpty || a.isEmpty <;> simp
      have hb : b.isEmpty = false := by
        revert hor
        cases hbe : b.isEmpty <;> cases hae : a.isEmpty <;> simp
      have ha : a.isEmpty = false := by
        revert hor
        cases hbe : b.isEmpty <;> cases hae : a.isEmpty <;> simp
      right
      refine ⟨b, a, rfl, hb, ha, ?_⟩
      simp only [pyWithSuffix, hs, hor, Bool.false_eq_true, if_false]

/-- Re-suffixing a recognized YAML file name with `.yaml` yields a name
whose suffix is exactly `.yaml`. -/
theorem pySuffix_withSuffix_yaml (name : String) (h : is_yaml_file name = true) :
    pySuffix (pyWithSuffix name ".yaml") = ".yaml" := by
  rcases pySuffix_cases name with hempty | ⟨b, a, hs, hb, ha, hws⟩
  · exfalso
    rw [is_yaml_file, hempty] at h
    exact absurd h (by decide)
  · rw [hws]
    have hdata : (String.mk b ++ ".yaml").data = b ++ '.' :: ['y', 'a', 'm', 'l'] := by
      rw [String.data_append]
    simp only [pySuffix, hdata, splitLastDot_append_yaml, hb]
    decide

/-- The output router returns a canonical name or the original one. -/
theorem map_output_filename_cases (name : String) (outDocs : List Val) :
    map_output_filename name outDocs = "deployment.yaml" ∨
    map_output_filename name outDocs = "ingress.yaml" ∨
    map_output_filename name outDocs = name := by
  unfold map_output_filename
  split_ifs <;> simp

/-- C10: whenever processing a parsed YAML file writes an output entry, the
destination name is the routed name re-suffixed to `.yaml`, and that
destination's extension is exactly `.yaml` — also when the source extension
was `.yml`. -/
theorem output_extension_always_yaml (cfg : Config) (st : RunState) (name : String)
    (docs : List Val) (st' : RunState)
    (hyaml : is_yaml_file name = true)
    (h : process_file cfg st (.parsed name docs) = some st') :
    st'.outputs = st.outputs ∨
    ∃ outs, outs ≠ [] ∧
      st'.outputs = st.outputs ++
        [(pyWithSuffix (map_output_filename name outs) ".yaml", outs)] ∧
      pySuffix (pyWithSuffix (map_output_filename name outs) ".yaml") = ".yaml" := by
  simp only [process_file, hyaml, eq_self_iff_true, if_true, Option.bind_eq_some] at h
  obtain ⟨so, hso, h⟩ := h
  injection h with h
  by_cases houts : so.2.isEmpty = true
  · left
    rw [if_pos houts] at h
    rw [← h]
    exact process_docs_outputs_eq cfg docs st so hso
  · right
    rw [if_neg houts] at h
    refine ⟨so.2, by simpa using houts, ?_, ?_⟩
    · rw [← h]
      show so.1.outputs ++ _ = _
      rw [show so.1.outputs = st.outputs from process_docs_outputs_eq cfg docs st so hso]
    · rcases map_output_filename_cases name so.2 with hm | hm | hm <;> rw [hm]
      · decide
      · decide
      · exact pySuffix_withSuffix_yaml name hyaml

/-- Example pass-through document for the `.yml` → `.yaml` rename. -/
def cmDocExample : Val := .map [("kind", .str "ConfigMap"),
  ("metadata", .map [("name", .str "cm")])]

/-- The run state after processing `config.yml` holding `cmDocExample`. -/
def cmRunExample : RunState :=
  (process_file cfgExample stExample (.parsed "config.yml" [cmDocExample])).getD stExample

/-- Closed instance of C10: the pass-through `config.yml` is written as
`config.yaml`. -/
theorem output_extension_always_yaml_witness :
    is_yaml_file "config.yml" = true ∧
    process_file cfgExample stExample (.parsed "config.yml" [cmDocExample]) = some cmRunExample ∧
    cmRunExample.outputs = [("config.yaml", [cmDocExample])] ∧
    (cmRunExample.outputs = stExample.outputs ∨
      ∃ outs, outs ≠ [] ∧
        cmRunExample.outputs = stExample.outputs ++
          [(pyWithSuffix (map_output_filename "config.yml" outs) ".yaml", outs)] ∧
        pySuffix (pyWithSuffix (map_output_filename "config.yml" outs) ".yaml") = ".yaml") :=
  ⟨by decide, rfl, rfl,
    output_extension_always_yaml cfgExample stExample "config.yml" [cmDocExample] cmRunExample
      (by decide) rfl⟩
